import Mathlib

/-!
# Verification of the ssot ACL core

A shallow embedding of the ACL resolution engine of the `ssot` repository
(`gql/graphql/internal/acl`): permission model, merge algorithm, TTL cache,
service mutations and the authorization middleware.  Go maps are modelled as
association lists (`List (key × value)`) with first-match lookup and
replace-or-append insertion; a nil Go map and an empty Go map behave
identically on reads and are both modelled as `[]`.  Times (`time.Time`,
`time.Duration`) are modelled as integers.
-/

set_option autoImplicit false

namespace Ssot

/-! ## Association-list model of Go maps -/

/-- First-match lookup, the model of `v, ok := m[k]`. -/
def mapFind {β : Type} : List (String × β) → String → Option β
  | [], _ => none
  | (a, b) :: t, k => if a = k then some b else mapFind t k

/-- Replace-or-append insertion, the model of `m[k] = v`. -/
def mapInsert {β : Type} : List (String × β) → String → β → List (String × β)
  | [], k, v => [(k, v)]
  | (a, b) :: t, k, v => if a = k then (k, v) :: t else (a, b) :: mapInsert t k v

/-- Key removal, the model of `delete(m, k)` (and of a DynamoDB DeleteItem). -/
def mapErase {β : Type} : List (String × β) → String → List (String × β)
  | [], _ => []
  | (a, b) :: t, k => if a = k then mapErase t k else (a, b) :: mapErase t k

/-- The model of `for k, v := range src { dst[k] = v }`. -/
def mapInsertAll {β : Type} (dst src : List (String × β)) : List (String × β) :=
  src.foldl (fun acc kv => mapInsert acc kv.1 kv.2) dst

/-- A Go map never binds a key twice; an association list standing for a Go
map therefore has pairwise distinct keys. -/
def keysNodup {β : Type} (m : List (String × β)) : Prop :=
  (m.map Prod.fst).Nodup

instance {β : Type} (m : List (String × β)) : Decidable (keysNodup m) := by
  unfold keysNodup; infer_instance

theorem mapFind_mapInsert {β : Type} (m : List (String × β)) (k : String) (v : β)
    (k' : String) :
    mapFind (mapInsert m k v) k' = if k = k' then some v else mapFind m k' := by
  induction m with
  | nil =>
    by_cases h : k = k' <;> simp [mapInsert, mapFind, h]
  | cons hd t ih =>
    obtain ⟨a, b⟩ := hd
    by_cases hak : a = k
    · subst hak
      by_cases h : a = k' <;> simp [mapInsert, mapFind, h]
    · by_cases h : a = k'
      · subst h
        have : ¬ k = a := fun hc => hak hc.symm
        simp [mapInsert, mapFind, hak, this]
      · simp [mapInsert, mapFind, hak, h, ih]

theorem mapFind_eq_none_of_not_mem {β : Type} (m : List (String × β)) (k : String)
    (h : k ∉ m.map Prod.fst) : mapFind m k = none := by
  induction m with
  | nil => rfl
  | cons hd t ih =>
    obtain ⟨a, b⟩ := hd
    simp only [List.map_cons, List.mem_cons] at h
    push_neg at h
    have : a ≠ k := fun hc => h.1 hc.symm
    simp [mapFind, this, ih h.2]

/-- Overlaying a (duplicate-free) map `src` onto `dst` by per-key insertion
looks up as: `src`'s binding when present, `dst`'s otherwise. -/
theorem mapFind_mapInsertAll {β : Type} (src : List (String × β))
    (hsrc : keysNodup src) (dst : List (String × β)) (k : String) :
    mapFind (mapInsertAll dst src) k = (mapFind src k).orElse (fun _ => mapFind dst k) := by
  induction src generalizing dst with
  | nil => simp [mapInsertAll, mapFind, Option.orElse]
  | cons hd t ih =>
    obtain ⟨a, b⟩ := hd
    have hnd : keysNodup t := by
      simpa [keysNodup] using (List.nodup_cons.mp hsrc).2
    have hnotmem : a ∉ t.map Prod.fst := by
      simpa [keysNodup] using (List.nodup_cons.mp hsrc).1
    have hstep : mapInsertAll dst ((a, b) :: t) = mapInsertAll (mapInsert dst a b) t := by
      simp [mapInsertAll]
    rw [hstep, ih hnd]
    by_cases h : a = k
    · subst h
      simp [mapFind, mapFind_eq_none_of_not_mem t a hnotmem, mapFind_mapInsert,
        Option.orElse]
    · simp [mapFind, h, mapFind_mapInsert, Option.orElse]

theorem mapFind_mapErase {β : Type} (m : List (String × β)) (k k' : String) :
    mapFind (mapErase m k) k' = if k = k' then none else mapFind m k' := by
  induction m with
  | nil => by_cases h : k = k' <;> simp [mapErase, mapFind, h]
  | cons hd t ih =>
    obtain ⟨a, b⟩ := hd
    by_cases hak : a = k
    · subst hak
      by_cases h : a = k'
      · subst h
        simpa [mapErase, mapFind] using ih
      · simp [mapErase, mapFind, h, ih]
    · by_cases h : k = k'
      · subst h
        have : a ≠ k := hak
        simp [mapErase, mapFind, hak, this, ih]
      · by_cases hak' : a = k'
        · subst hak'
          simp [mapErase, mapFind, hak, h, ih]
        · simp [mapErase, mapFind, hak, hak', h, ih]

/-! ## Permission model (`internal/acl/types.go`) -/

/-- `FieldFilter` from `types.go`: per-field include/exclude value rules. -/
structure FieldFilter where
  field : String
  includeList : List String
  excludeList : List String
  filterType : String
deriving Repr, DecidableEq

/-- `ACLRecord` from `types.go`.  `UpdatedAt` (an RFC 3339 string in Go) is
modelled as the integer timestamp it renders. -/
structure ACLRecord where
  principalID : String
  groups : List String
  permissions : List (String × String)
  fieldFilters : List (String × FieldFilter)
  updatedAt : Int
deriving Repr, DecidableEq

/-- `MergedACL` from `types.go`. -/
structure MergedACL where
  userEmail : String
  permissions : List (String × String)
  fieldFilters : List (String × FieldFilter)
  groups : List String
  cachedAt : Int
deriving Repr, DecidableEq

/-- `CacheEntry` from `types.go`. -/
structure CacheEntry where
  acl : ACLRecord
  expiresAt : Int
deriving Repr, DecidableEq

/-- `CacheEntry.IsExpired`: `time.Now().After(c.ExpiresAt)`, i.e. strictly
later than the expiry instant. -/
def CacheEntry.isExpired (c : CacheEntry) (now : Int) : Bool :=
  now > c.expiresAt

/-- `NewCacheEntry`. -/
def newCacheEntry (acl : ACLRecord) (now ttl : Int) : CacheEntry :=
  { acl := acl, expiresAt := now + ttl }

/-- `hasPermission` from `types.go`: which stored permission strings imply a
requested action.  The Go `switch` returns `false` for `"blocking"` and for
any unrecognized action. -/
def hasPermission (permission action : String) : Bool :=
  if action = "read" then permission = "read" || permission = "readwrite"
  else if action = "write" then permission = "readwrite"
  else false

/-- `MergedACL.CanAccess` from `types.go`, as a function of the merged
permissions map: blocking checks most-specific first, then positive checks
most-specific first, default deny. -/
def canAccess (perms : List (String × String)) (table column action : String) : Bool :=
  let exactKey := table ++ "#" ++ column
  let wildcardKey := table ++ "#*"
  if mapFind perms exactKey = some "blocking" then false
  else if mapFind perms wildcardKey = some "blocking" then false
  else if mapFind perms "*#*" = some "blocking" then false
  else
    match mapFind perms exactKey with
    | some perm => hasPermission perm action
    | none =>
      match mapFind perms wildcardKey with
      | some perm => hasPermission perm action
      | none =>
        match mapFind perms "*#*" with
        | some perm => hasPermission perm action
        | none => false

/-- `FieldFilter.IsValueAllowed` from `types.go`: exclude list wins, empty
include list admits everything not excluded. -/
def FieldFilter.isValueAllowed (ff : FieldFilter) (value : String) : Bool :=
  if ff.excludeList.contains value then false
  else if ff.includeList.isEmpty then true
  else ff.includeList.contains value

/-- `MergeFieldFilters` from `types.go`: group filters as base, user filters
override key-by-key. -/
def mergeFieldFilters (userFilters groupFilters : List (String × FieldFilter)) :
    List (String × FieldFilter) :=
  mapInsertAll (mapInsertAll [] groupFilters) userFilters

/-! ## Repository (`internal/acl/repository.go`)

The DynamoDB table is modelled as an association list keyed by
`PrincipalID`.  `marshalACLRecord` writes only `PrincipalID`, `UpdatedAt`,
`Groups` and `Permissions`, and `unmarshalACLRecord` reads only those four
attributes: field filters pass through neither direction, which the
`stripFilters` marshalling model makes explicit. -/

/-- The backing DynamoDB table, keyed by `PrincipalID`. -/
abbrev Store := List (String × ACLRecord)

/-- `marshalACLRecord`/`unmarshalACLRecord` round trip: every attribute of
the record except `FieldFilters`, which neither function touches. -/
def stripFilters (r : ACLRecord) : ACLRecord :=
  { r with fieldFilters := [] }

/-- `DynamoRepository.GetUserRecord`: a missing item is not an error but an
empty, well-formed record for the requested principal. -/
def getUserRecord (store : Store) (email : String) (now : Int) : ACLRecord :=
  match mapFind store email with
  | none =>
    { principalID := email, groups := [], permissions := [], fieldFilters := [],
      updatedAt := now }
  | some item => stripFilters item

/-- `DynamoRepository.BatchGetGroupRecords`: keys absent from the table are
simply absent from the result. -/
def batchGetGroupRecords (store : Store) (groupNames : List String) : List ACLRecord :=
  groupNames.filterMap (fun name => (mapFind store name).map stripFilters)

/-- `DynamoRepository.PutUserRecord` / `PutGroupRecord` (identical bodies in
the source): refresh `UpdatedAt` and upsert under the record's principal ID. -/
def putRecord (store : Store) (record : ACLRecord) (now : Int) : Store :=
  mapInsert store record.principalID (stripFilters { record with updatedAt := now })

/-- `DynamoRepository.DeleteRecord`. -/
def deleteRecord (store : Store) (principalID : String) : Store :=
  mapErase store principalID

/-! ## Service (`internal/acl/service.go`) -/

/-- The mutable state an `ACLService` closes over: the backing table and the
in-process cache. -/
structure ServiceState where
  store : Store
  cache : List (String × CacheEntry)
deriving DecidableEq

/-- `isGroupName`: `len(name) > 6 && name[:6] == "group:"` (byte length and
character length agree on these ASCII names). -/
def isGroupName (name : String) : Bool :=
  name.length > 6 && name.take 6 = "group:"

/-- `ACLService.fetchAndMergeACL`: fetch the user record, batch-fetch its
groups, overlay group permissions in iteration order, then overlay the user's
own permissions.  The `MergedACL` literal in the source omits `FieldFilters`,
so the result carries the nil (empty) filter map. -/
def fetchAndMergeACL (store : Store) (email : String) (now : Int) : MergedACL :=
  let userRecord := getUserRecord store email now
  let groupRecords := batchGetGroupRecords store userRecord.groups
  let groupMerged := groupRecords.foldl (fun acc g => mapInsertAll acc g.permissions) []
  let mergedPermissions := mapInsertAll groupMerged userRecord.permissions
  { userEmail := email, permissions := mergedPermissions, fieldFilters := [],
    groups := userRecord.groups, cachedAt := now }

/-- `ACLService.GetMergedACL`: cache-first resolution.  Returns the merged
view, the successor state, and whether the repository was consulted.  On a
hit the stored record is returned directly (its `CachedAt` reconstructed as
`now - ttl + (expiresAt - now)`); on a miss the merged result itself is
cached under the user's email. -/
def getMergedACL (ttl : Int) (st : ServiceState) (email : String) (now : Int) :
    MergedACL × ServiceState × Bool :=
  match mapFind st.cache email with
  | some entry =>
    if !entry.isExpired now then
      ({ userEmail := email, permissions := entry.acl.permissions, fieldFilters := [],
         groups := entry.acl.groups,
         cachedAt := now - ttl + (entry.expiresAt - now) }, st, false)
    else
      let mergedACL := fetchAndMergeACL st.store email now
      let cached : ACLRecord :=
        { principalID := email, groups := mergedACL.groups,
          permissions := mergedACL.permissions, fieldFilters := [], updatedAt := now }
      (mergedACL,
       { st with cache := mapInsert st.cache email (newCacheEntry cached now ttl) }, true)
  | none =>
    let mergedACL := fetchAndMergeACL st.store email now
    let cached : ACLRecord :=
      { principalID := email, groups := mergedACL.groups,
        permissions := mergedACL.permissions, fieldFilters := [], updatedAt := now }
    (mergedACL,
     { st with cache := mapInsert st.cache email (newCacheEntry cached now ttl) }, true)

/-- `ACLService.InvalidateCache`: drop one user's cache entry. -/
def invalidateCache (st : ServiceState) (email : String) : ServiceState :=
  { st with cache := mapErase st.cache email }

/-- `ACLService.InvalidateAllCache`: drop every cache entry. -/
def invalidateAllCache (st : ServiceState) : ServiceState :=
  { st with cache := [] }

/-- `ACLService.CreateUser`: persist the record, then invalidate that user's
cache entry. -/
def createUser (st : ServiceState) (email : String) (groups : List String)
    (permissions : List (String × String)) (now : Int) : ServiceState :=
  let record : ACLRecord :=
    { principalID := email, groups := groups, permissions := permissions,
      fieldFilters := [], updatedAt := now }
  invalidateCache { st with store := putRecord st.store record now } email

/-- `ACLService.CreateGroup`: normalize the name to `group:<name>` when not
already prefixed, persist, then invalidate the whole cache. -/
def createGroup (st : ServiceState) (groupName : String)
    (permissions : List (String × String)) (now : Int) : ServiceState :=
  let name := if isGroupName groupName then groupName else "group:" ++ groupName
  let record : ACLRecord :=
    { principalID := name, groups := [], permissions := permissions,
      fieldFilters := [], updatedAt := now }
  invalidateAllCache { st with store := putRecord st.store record now }

/-- `ACLService.UpdateUserGroups`: read-modify-write the user record, then
invalidate that user's cache entry. -/
def updateUserGroups (st : ServiceState) (email : String) (groups : List String)
    (now : Int) : ServiceState :=
  let userRecord := getUserRecord st.store email now
  invalidateCache
    { st with store := putRecord st.store { userRecord with groups := groups } now } email

/-- `ACLService.UpdateUserPermissions`: read-modify-write the user record,
then invalidate that user's cache entry. -/
def updateUserPermissions (st : ServiceState) (email : String)
    (permissions : List (String × String)) (now : Int) : ServiceState :=
  let userRecord := getUserRecord st.store email now
  invalidateCache
    { st with
      store := putRecord st.store { userRecord with permissions := permissions } now } email

/-- `ACLService.UpdateGroupPermissions`: normalize the name, read-modify-write
the group record, then invalidate the whole cache. -/
def updateGroupPermissions (st : ServiceState) (groupName : String)
    (permissions : List (String × String)) (now : Int) : ServiceState :=
  let name := if isGroupName groupName then groupName else "group:" ++ groupName
  let groupRecord := getUserRecord st.store name now
  invalidateAllCache
    { st with
      store := putRecord st.store { groupRecord with permissions := permissions } now }

/-- `ACLService.DeleteUser`: delete the record, then invalidate that user's
cache entry. -/
def deleteUser (st : ServiceState) (email : String) : ServiceState :=
  invalidateCache { st with store := deleteRecord st.store email } email

/-- `ACLService.DeleteGroup`: normalize the name, delete the record, then
invalidate the whole cache. -/
def deleteGroup (st : ServiceState) (groupName : String) : ServiceState :=
  let name := if isGroupName groupName then groupName else "group:" ++ groupName
  invalidateAllCache { st with store := deleteRecord st.store name }

/-- Modelled from the spec: `CreateUserWithFieldFilters` is called by the
mutation resolver but its definition is not among the sources.  Per §4.3 it
rejects a group list containing the literal `"admin"` with a descriptive
failure, and otherwise persists the record (through the repository) and
invalidates the single-user cache entry. -/
def createUserWithFieldFilters (st : ServiceState) (email : String)
    (groups : List String) (permissions : List (String × String))
    (fieldFilters : List (String × FieldFilter)) (now : Int) :
    Except String Unit × ServiceState :=
  if groups.contains "admin" then
    (Except.error "cannot assign the admin group through this API", st)
  else
    let record : ACLRecord :=
      { principalID := email, groups := groups, permissions := permissions,
        fieldFilters := fieldFilters, updatedAt := now }
    (Except.ok (), invalidateCache { st with store := putRecord st.store record now } email)

/-- Modelled from the spec: `CreateGroupWithFieldFilters` is called by the
mutation resolver but its definition is not among the sources.  Per §4.3 it
normalizes the name to `group:<name>` when not already prefixed, rejects the
literal group `"admin"`, and otherwise persists and invalidates the entire
cache. -/
def createGroupWithFieldFilters (st : ServiceState) (groupName : String)
    (permissions : List (String × String))
    (fieldFilters : List (String × FieldFilter)) (now : Int) :
    Except String Unit × ServiceState :=
  if groupName = "admin" then
    (Except.error "cannot modify the admin group through this API", st)
  else
    let name := if isGroupName groupName then groupName else "group:" ++ groupName
    let record : ACLRecord :=
      { principalID := name, groups := [], permissions := permissions,
        fieldFilters := fieldFilters, updatedAt := now }
    (Except.ok (), invalidateAllCache { st with store := putRecord st.store record now })

/-! ## Middleware (the `ACLMiddleware` file)

`GetUserFromContext` (the auth middleware, outside this core) and
`service.GetMergedACL` enter each middleware function only through their
outcomes, so the functions are parametrized by those outcomes: an
`Except`-valued authenticated user and an `Except`-valued merged ACL. -/

/-- The authenticated principal the auth middleware places in the request
context: an email plus the identity provider's scope string. -/
structure AuthUser where
  email : String
  scope : String
deriving Repr, DecidableEq

/-- Does `s` start with `pat`? (helper for `strings.Contains`). -/
def listStartsWith : List Char → List Char → Bool
  | [], _ => true
  | _ :: _, [] => false
  | a :: as, b :: bs => a = b && listStartsWith as bs

/-- Does `l` contain `sub` as a contiguous run? (helper for
`strings.Contains`). -/
def listHasSub (sub : List Char) : List Char → Bool
  | [] => listStartsWith sub []
  | c :: rest => listStartsWith sub (c :: rest) || listHasSub sub rest

/-- Go's `strings.Contains(s, sub)`. -/
def strContains (s sub : String) : Bool :=
  listHasSub sub.toList s.toList

/-- `ACLMiddleware.CheckPermission`: authentication failure and resolution
failure each propagate as errors; otherwise `CanAccess` decides. -/
def checkPermission (user : Except String AuthUser)
    (merged : Except String MergedACL) (table column action : String) :
    Except String Unit :=
  match user with
  | Except.error e => Except.error ("authentication required: " ++ e)
  | Except.ok u =>
    match merged with
    | Except.error e => Except.error ("failed to get user permissions: " ++ e)
    | Except.ok acl =>
      if canAccess acl.permissions table column action then Except.ok ()
      else
        Except.error ("access denied: user " ++ u.email ++ " does not have " ++
          action ++ " permission for " ++ table ++ "." ++ column)

/-- `ACLMiddleware.CheckPermissionFlexible`: passes when the ACL check passes,
or — when the ACL check failed *or errored* — when the required scope is
non-empty and contained in the user's scope string. -/
def checkPermissionFlexible (user : Except String AuthUser)
    (merged : Except String MergedACL)
    (table column action requiredScope : String) : Except String Unit :=
  match user with
  | Except.error e => Except.error ("authentication required: " ++ e)
  | Except.ok u =>
    let aclPassed :=
      match merged with
      | Except.ok acl => canAccess acl.permissions table column action
      | Except.error _ => false
    if aclPassed then Except.ok ()
    else if requiredScope != "" && strContains u.scope requiredScope then Except.ok ()
    else
      Except.error ("access denied: user " ++ u.email ++ " does not have " ++
        action ++ " permission for " ++ table ++ "." ++ column ++
        " (checked both ACL and scope " ++ requiredScope ++ ")")

/-- `ColumnPermissions` from `types.go`; the derived `AllowedColumns` /
`BlockedColumns` convenience lists are populated by `NewColumnPermissions`. -/
structure ColumnPermissions where
  table : String
  columnAccess : List (String × String)
  usedScopeFallback : Bool
  allowedColumns : List String
  blockedColumns : List String
deriving Repr, DecidableEq

/-- `NewColumnPermissions`: split the access map into the convenience lists
(`"allowed"` entries versus all others). -/
def newColumnPermissions (table : String) (columnAccess : List (String × String))
    (usedScopeFallback : Bool) : ColumnPermissions :=
  { table := table, columnAccess := columnAccess,
    usedScopeFallback := usedScopeFallback,
    allowedColumns := (columnAccess.filter (fun kv => kv.2 = "allowed")).map Prod.fst,
    blockedColumns := (columnAccess.filter (fun kv => ¬ kv.2 = "allowed")).map Prod.fst }

/-- `ACLMiddleware.GetColumnPermissionsFlexible`: per-column `CanAccess read`
when the ACL resolved; all-allowed with `usedScopeFallback` when it did not
but the scope matches; all-blocked plus an error otherwise.  The Go function
returns a `*ColumnPermissions` and an `error`, modelled as the pair of
options. -/
def getColumnPermissionsFlexible (user : Except String AuthUser)
    (merged : Except String MergedACL) (table requiredScope : String)
    (allColumns : List String) : Option ColumnPermissions × Option String :=
  match user with
  | Except.error e => (none, some ("authentication required: " ++ e))
  | Except.ok u =>
    match merged with
    | Except.ok acl =>
      let columnAccess := allColumns.foldl
        (fun acc column =>
          mapInsert acc column
            (if canAccess acl.permissions table column "read" then "allowed"
             else "blocked")) []
      (some (newColumnPermissions table columnAccess false), none)
    | Except.error _ =>
      if requiredScope != "" && strContains u.scope requiredScope then
        let columnAccess := allColumns.foldl
          (fun acc column => mapInsert acc column "allowed") []
        (some (newColumnPermissions table columnAccess true), none)
      else
        let columnAccess := allColumns.foldl
          (fun acc column => mapInsert acc column "blocked") []
        (some (newColumnPermissions table columnAccess false),
         some ("access denied: user " ++ u.email ++
           " does not have read permission for " ++ table ++
           " (checked both ACL and scope " ++ requiredScope ++ ")"))

/-! ## Mutation resolver (the `ACLMutationResolver` file) -/

/-- `model.ACLMutationResult` (the GraphQL `Record` payload, absent from
every branch the claims touch, is omitted). -/
structure MutationResult where
  success : Bool
  message : String
deriving Repr, DecidableEq

/-- `model.PermissionInput`. -/
structure PermissionInput where
  table : String
  action : String
deriving Repr, DecidableEq

/-- `model.FieldFilterInput`. -/
structure FieldFilterInput where
  field : String
  includeList : List String
  excludeList : List String
  filterType : String
deriving Repr, DecidableEq

/-- `model.AddUserACLInput`. -/
structure AddUserACLInput where
  email : String
  groups : List String
  permissions : List PermissionInput
  fieldFilters : List FieldFilterInput
deriving Repr, DecidableEq

/-- `model.AddGroupACLInput` / `model.UpdateGroupACLInput`. -/
structure GroupACLInput where
  groupName : String
  permissions : List PermissionInput
  fieldFilters : List FieldFilterInput
deriving Repr, DecidableEq

/-- `convertPermissionsToACL`: each input becomes a table-level key
`table#*`. -/
def convertPermissionsToACL (permissions : List PermissionInput) :
    List (String × String) :=
  permissions.foldl (fun acc p => mapInsert acc (p.table ++ "#*") p.action) []

/-- `convertFieldFiltersToACL`. -/
def convertFieldFiltersToACL (filters : List FieldFilterInput) :
    List (String × FieldFilter) :=
  filters.foldl
    (fun acc f =>
      mapInsert acc f.field
        { field := f.field, includeList := f.includeList,
          excludeList := f.excludeList, filterType := f.filterType }) []

/-- Modelled from the spec: `RequireAdminAccess` is called by every resolver
but its definition is not among the sources.  Per §4.4 it succeeds exactly
when the resolved caller's merged groups include `admin`. -/
def requireAdminAccess (callerGroups : List String) : Bool :=
  callerGroups.contains "admin"

/-- `ACLMutationResolver.AddUserACL`: admin gate, then the guard rejecting a
group list containing the literal `"admin"`, then create and re-resolve (the
re-resolution caches the fresh record). -/
def addUserACL (callerGroups : List String) (input : AddUserACLInput)
    (ttl : Int) (st : ServiceState) (now : Int) : MutationResult × ServiceState :=
  if !requireAdminAccess callerGroups then
    ({ success := false, message := "Access denied" }, st)
  else if input.groups.contains "admin" then
    ({ success := false,
       message := "Cannot assign admin group through ACL configuration" }, st)
  else
    let permissions := convertPermissionsToACL input.permissions
    let fieldFilters := convertFieldFiltersToACL input.fieldFilters
    match createUserWithFieldFilters st input.email input.groups permissions
        fieldFilters now with
    | (Except.error e, st') =>
      ({ success := false, message := "Failed to create user ACL: " ++ e }, st')
    | (Except.ok _, st') =>
      let fetched := getMergedACL ttl st' input.email now
      ({ success := true, message := "User ACL created successfully" }, fetched.2.1)

/-- `ACLMutationResolver.AddGroupACL`: admin gate, then the guard rejecting
the literal group name `"admin"`, then create. -/
def addGroupACL (callerGroups : List String) (input : GroupACLInput)
    (st : ServiceState) (now : Int) : MutationResult × ServiceState :=
  if !requireAdminAccess callerGroups then
    ({ success := false, message := "Access denied" }, st)
  else if input.groupName = "admin" then
    ({ success := false,
       message := "Cannot modify admin group through ACL configuration" }, st)
  else
    let permissions := convertPermissionsToACL input.permissions
    let fieldFilters := convertFieldFiltersToACL input.fieldFilters
    match createGroupWithFieldFilters st input.groupName permissions fieldFilters now with
    | (Except.error e, st') =>
      ({ success := false, message := "Failed to create group ACL: " ++ e }, st')
    | (Except.ok _, st') =>
      ({ success := true,
         message := "Group ACL '" ++ input.groupName ++ "' created successfully" }, st')

/-- `ACLMutationResolver.UpdateGroupACL`: admin gate, then the guard
rejecting the literal group name `"admin"`, then update permissions when some
were supplied. -/
def updateGroupACL (callerGroups : List String) (input : GroupACLInput)
    (st : ServiceState) (now : Int) : MutationResult × ServiceState :=
  if !requireAdminAccess callerGroups then
    ({ success := false, message := "Access denied" }, st)
  else if input.groupName = "admin" then
    ({ success := false,
       message := "Cannot modify admin group through ACL configuration" }, st)
  else
    let st' :=
      if input.permissions.length > 0 then
        updateGroupPermissions st input.groupName
          (convertPermissionsToACL input.permissions) now
      else st
    ({ success := true,
       message := "Group ACL '" ++ input.groupName ++ "' updated successfully" }, st')

/-- `ACLMutationResolver.DeleteGroupACL`: admin gate, then the guard
rejecting the literal group name `"admin"`, then delete. -/
def deleteGroupACL (callerGroups : List String) (groupName : String)
    (st : ServiceState) : MutationResult × ServiceState :=
  if !requireAdminAccess callerGroups then
    ({ success := false, message := "Access denied" }, st)
  else if groupName = "admin" then
    ({ success := false,
       message := "Cannot delete admin group through ACL configuration" }, st)
  else
    ({ success := true,
       message := "Group ACL '" ++ groupName ++ "' deleted successfully" },
     deleteGroup st groupName)

/-! ## Spec-side definitions (for the refinement claims) -/

/-- Spec-side action implication table, following the specification's words:
`readwrite` implies both `read` and `write`; `read` implies only `read`;
anything else (including `blocking` and unrecognized values or actions)
implies nothing. -/
def hasPermissionSpec (stored action : String) : Bool :=
  if stored = "readwrite" then action = "read" || action = "write"
  else if stored = "read" then action = "read"
  else false

/-- Spec-side `CanAccess`, following the specification's words: blocking
check most-specific first over the three keys, then positive check
most-specific first with the first present key deciding via action
implication, else deny. -/
def canAccessSpec (perms : List (String × String)) (table column action : String) : Bool :=
  let exactKey := table ++ "#" ++ column
  let wildcardKey := table ++ "#*"
  if mapFind perms exactKey = some "blocking" then false
  else if mapFind perms wildcardKey = some "blocking" then false
  else if mapFind perms "*#*" = some "blocking" then false
  else
    match mapFind perms exactKey with
    | some v => hasPermissionSpec v action
    | none =>
      match mapFind perms wildcardKey with
      | some v => hasPermissionSpec v action
      | none =>
        match mapFind perms "*#*" with
        | some v => hasPermissionSpec v action
        | none => false

theorem hasPermission_eq_spec (p a : String) : hasPermission p a = hasPermissionSpec p a := by
  unfold hasPermission hasPermissionSpec
  by_cases ha : a = "read"
  · subst ha
    by_cases hp : p = "readwrite" <;> by_cases hq : p = "read" <;> simp [hp, hq]
  · by_cases hw : a = "write"
    · subst hw
      by_cases hp : p = "readwrite" <;> by_cases hq : p = "read" <;> simp [hp, hq, ha]
    · by_cases hp : p = "readwrite" <;> by_cases hq : p = "read" <;>
        simp [hp, hq, ha, hw]

/-- The concrete scenario's backing store: user `a@x.com` in `group:analyst`
with a user-level block on `LoanCashFlow#Balance`, the group granting
`LoanCashFlow#* = read`. -/
def scenarioStore : Store :=
  [("a@x.com",
    { principalID := "a@x.com", groups := ["group:analyst"],
      permissions := [("LoanCashFlow#Balance", "blocking")], fieldFilters := [],
      updatedAt := 0 }),
   ("group:analyst",
    { principalID := "group:analyst", groups := [],
      permissions := [("LoanCashFlow#*", "read")], fieldFilters := [],
      updatedAt := 0 })]

/-- C1.  `CanAccess` evaluates blocking first, most-specific first, then the
positive check most-specific first with the first present key deciding via
action implication, else deny — i.e. it coincides with the spec-side
`canAccessSpec` — and on the merge of user `{LoanCashFlow#Balance: blocking}`
over group `{LoanCashFlow#*: read}` it denies `Balance` reads and allows
`Status` reads. -/
theorem canAccess_matches_spec_and_scenario :
    (∀ (perms : List (String × String)) (table column action : String),
      canAccess perms table column action = canAccessSpec perms table column action)
    ∧ canAccess (fetchAndMergeACL scenarioStore "a@x.com" 0).permissions
        "LoanCashFlow" "Balance" "read" = false
    ∧ canAccess (fetchAndMergeACL scenarioStore "a@x.com" 0).permissions
        "LoanCashFlow" "Status" "read" = true := by
  refine ⟨fun perms table column action => ?_, by decide, by decide⟩
  unfold canAccess canAccessSpec
  repeat' split <;> simp_all [hasPermission_eq_spec]

/-- C9.  A principal whose record is absent from the backing store resolves,
without an error, to an empty well-formed record: the requested ID, no
groups, empty permission and filter maps. -/
theorem getUserRecord_absent_empty (store : Store) (email : String) (now : Int)
    (h : mapFind store email = none) :
    getUserRecord store email now =
      { principalID := email, groups := [], permissions := [], fieldFilters := [],
        updatedAt := now } := by
  unfold getUserRecord
  rw [h]

theorem getUserRecord_absent_empty_witness :
    getUserRecord [] "nobody@x.com" 7 =
      { principalID := "nobody@x.com", groups := [], permissions := [],
        fieldFilters := [], updatedAt := 7 } :=
  getUserRecord_absent_empty [] "nobody@x.com" 7 rfl

/-- The stored value governing a positive `CanAccess` decision: the value at
the most specific key present among `table#column`, `table#*`, `*#*`. -/
def governingValue (perms : List (String × String)) (table column : String) :
    Option String :=
  (mapFind perms (table ++ "#" ++ column)).orElse fun _ =>
    (mapFind perms (table ++ "#*")).orElse fun _ =>
      mapFind perms "*#*"

/-- None of the three applicable tiers stores `blocking`. -/
def noBlocking (perms : List (String × String)) (table column : String) : Prop :=
  mapFind perms (table ++ "#" ++ column) ≠ some "blocking"
  ∧ mapFind perms (table ++ "#*") ≠ some "blocking"
  ∧ mapFind perms "*#*" ≠ some "blocking"

/-- C10.  A `write` request succeeds exactly when no applicable tier blocks
and the governing stored value is `"readwrite"`; in particular a stored value
`"write"` grants neither `read` nor `write`. -/
theorem canAccess_write_iff_readwrite (perms : List (String × String))
    (table column : String) :
    (canAccess perms table column "write" = true ↔
      noBlocking perms table column ∧
        governingValue perms table column = some "readwrite")
    ∧ (governingValue perms table column = some "write" →
        canAccess perms table column "read" = false ∧
        canAccess perms table column "write" = false) := by
  unfold canAccess governingValue noBlocking hasPermission
  cases h1 : mapFind perms (table ++ "#" ++ column) <;>
    cases h2 : mapFind perms (table ++ "#*") <;>
      cases h3 : mapFind perms "*#*" <;>
        simp_all [Option.orElse] <;>
          (try constructor) <;>
            (intro h; simp_all)

theorem canAccess_write_iff_readwrite_witness :
    canAccess [("T#c", "write")] "T" "c" "read" = false ∧
    canAccess [("T#c", "write")] "T" "c" "write" = false :=
  (canAccess_write_iff_readwrite [("T#c", "write")] "T" "c").2 (by decide)

/-! ## Merge precedence (claim C2) -/

/-- The value the last group record (in iteration order) that defines `k`
assigns to `k`, if any. -/
def lastGroupValue (groupRecords : List ACLRecord) (k : String) : Option String :=
  groupRecords.foldl (fun acc g => (mapFind g.permissions k).orElse fun _ => acc) none

theorem mapFind_groupFold (k : String) (gs : List ACLRecord)
    (hnd : ∀ g ∈ gs, keysNodup g.permissions) :
    ∀ acc : List (String × String),
      mapFind (gs.foldl (fun acc g => mapInsertAll acc g.permissions) acc) k =
        gs.foldl (fun r g => (mapFind g.permissions k).orElse fun _ => r) (mapFind acc k) := by
  induction gs with
  | nil => intro acc; rfl
  | cons g t ih =>
    intro acc
    have hg : keysNodup g.permissions := hnd g (List.mem_cons_self g t)
    have ht : ∀ g' ∈ t, keysNodup g'.permissions :=
      fun g' hm => hnd g' (List.mem_cons_of_mem g hm)
    simp only [List.foldl_cons]
    rw [ih ht, mapFind_mapInsertAll g.permissions hg acc k]

/-- C2.  On a cache miss, the merged permissions map sends a key to the
user's own value when the user record defines it, otherwise to the value of
the last group record (in iteration order) defining it, and is undefined on
keys no record defines. -/
theorem getMergedACL_merge_precedence (ttl now : Int) (st : ServiceState)
    (email k : String)
    (hmiss : mapFind st.cache email = none)
    (huser : keysNodup (getUserRecord st.store email now).permissions)
    (hgroups : ∀ g ∈ batchGetGroupRecords st.store (getUserRecord st.store email now).groups,
      keysNodup g.permissions) :
    mapFind (getMergedACL ttl st email now).1.permissions k =
      (mapFind (getUserRecord st.store email now).permissions k).orElse
        (fun _ =>
          lastGroupValue
            (batchGetGroupRecords st.store (getUserRecord st.store email now).groups) k) := by
  unfold getMergedACL
  rw [hmiss]
  show mapFind (fetchAndMergeACL st.store email now).permissions k = _
  unfold fetchAndMergeACL lastGroupValue
  simp only
  rw [mapFind_mapInsertAll _ huser _ k,
    mapFind_groupFold k _ hgroups []]
  rfl

/-- Witness store for C2: `u@x.com` defines `A#*` itself, belongs to groups
`group:g1` and `group:g2` which both define `B#*` (the later `g2` must win)
and of which only `g1` defines `C#*`. -/
def mergeWitnessStore : Store :=
  [("u@x.com",
    { principalID := "u@x.com", groups := ["group:g1", "group:g2"],
      permissions := [("A#*", "readwrite"), ("B#*", "blocking")], fieldFilters := [],
      updatedAt := 0 }),
   ("group:g1",
    { principalID := "group:g1", groups := [],
      permissions := [("B#*", "read"), ("C#*", "read")], fieldFilters := [],
      updatedAt := 0 }),
   ("group:g2",
    { principalID := "group:g2", groups := [],
      permissions := [("B#*", "readwrite")], fieldFilters := [], updatedAt := 0 })]

theorem getMergedACL_merge_precedence_witness :
    mapFind (getMergedACL 900 { store := mergeWitnessStore, cache := [] }
        "u@x.com" 0).1.permissions "B#*" =
      (mapFind (getUserRecord mergeWitnessStore "u@x.com" 0).permissions "B#*").orElse
        (fun _ =>
          lastGroupValue
            (batchGetGroupRecords mergeWitnessStore
              (getUserRecord mergeWitnessStore "u@x.com" 0).groups) "B#*") :=
  getMergedACL_merge_precedence 900 0 { store := mergeWitnessStore, cache := [] }
    "u@x.com" "B#*" rfl (by decide) (by decide)

/-! ## Field filters never reach the merged view (claim C3) -/

/-- A user record carrying a field filter on `loancode`. -/
def filteredUserRecord : ACLRecord :=
  { principalID := "u@x.com", groups := [], permissions := [("LoanCashFlow#*", "read")],
    fieldFilters :=
      [("loancode",
        { field := "loancode", includeList := ["L1", "L2"], excludeList := [],
          filterType := "include" })],
    updatedAt := 0 }

/-- C3.  The merged view produced by `GetMergedACL` carries an empty field
filter map even for a user whose record holds a filter (the merge never
consults filters, and the repository marshalling drops them), while the
`MergeFieldFilters` override rule the claim describes would carry the user's
filter through. -/
theorem getMergedACL_drops_fieldFilters :
    (getMergedACL 900 { store := [("u@x.com", filteredUserRecord)], cache := [] }
      "u@x.com" 0).1.fieldFilters = []
    ∧ mergeFieldFilters filteredUserRecord.fieldFilters [] =
        filteredUserRecord.fieldFilters
    ∧ filteredUserRecord.fieldFilters ≠ [] := by
  refine ⟨rfl, by decide, by decide⟩

/-! ## Admin immutability and its bypass (claim C4) -/

/-- The out-of-band provisioned admin group record. -/
def adminGroupRecord : ACLRecord :=
  { principalID := "group:admin", groups := [],
    permissions := [("*#*", "readwrite")], fieldFilters := [], updatedAt := 0 }

/-- A store holding the admin group record. -/
def adminGuardStore : Store := [("group:admin", adminGroupRecord)]

/-- The service state the guard scenarios start from. -/
def adminGuardState : ServiceState := { store := adminGuardStore, cache := [] }

/-- A user-creation input naming the literal `admin` group. -/
def adminUserInput : AddUserACLInput :=
  { email := "e@x.com", groups := ["admin"], permissions := [], fieldFilters := [] }

/-- A group input naming the literal `admin` group. -/
def adminGroupInput : GroupACLInput :=
  { groupName := "admin", permissions := [⟨"T", "read"⟩], fieldFilters := [] }

/-- C4.  The mutation-surface guards reject the literal name `"admin"` with
`success:false` and leave the state untouched, but the already-prefixed form
`"group:admin"` passes every guard: `DeleteGroupACL("group:admin")` reports
success and deletes the admin group's record from the store. -/
theorem admin_guard_bypassed_by_prefixed_name :
    (addUserACL ["admin"] adminUserInput 900 adminGuardState 0 =
      ({ success := false,
         message := "Cannot assign admin group through ACL configuration" },
       adminGuardState))
    ∧ (addGroupACL ["admin"] adminGroupInput adminGuardState 0 =
      ({ success := false,
         message := "Cannot modify admin group through ACL configuration" },
       adminGuardState))
    ∧ (updateGroupACL ["admin"] adminGroupInput adminGuardState 0 =
      ({ success := false,
         message := "Cannot modify admin group through ACL configuration" },
       adminGuardState))
    ∧ (deleteGroupACL ["admin"] "admin" adminGuardState =
      ({ success := false,
         message := "Cannot delete admin group through ACL configuration" },
       adminGuardState))
    ∧ mapFind adminGuardState.store "group:admin" = some adminGroupRecord
    ∧ (deleteGroupACL ["admin"] "group:admin" adminGuardState).1.success = true
    ∧ mapFind (deleteGroupACL ["admin"] "group:admin" adminGuardState).2.store
        "group:admin" = none := by
  refine ⟨by decide, by decide, by decide, by decide, by decide, by decide, by decide⟩

/-! ## Store failures and the flexible checks (claim C5) -/

/-- C5, counterexample.  A repository failure during ACL resolution is not
returned by `CheckPermissionFlexible`: with a matching provider scope the
call succeeds outright, converting the store failure into an allow. -/
theorem checkPermissionFlexible_allows_despite_store_failure :
    checkPermissionFlexible
      (Except.ok { email := "u@x.com", scope := "openid read:loans" })
      (Except.error "dynamodb unavailable")
      "LoanCashFlow" "Balance" "read" "read:loans" = Except.ok () := by
  rfl

/-- C5, amended.  When ACL resolution fails, `CheckPermission` propagates the
failure as an error, while the flexible operations fall back to the scope
check: a matching non-empty scope yields success (all columns allowed, with
`usedScopeFallback` set), and a non-matching one yields an access-denied
error (all columns blocked) rather than the store failure. -/
theorem storeFailure_propagation_and_scope_fallback (u : AuthUser)
    (e table column action requiredScope : String) (cols : List String) :
    checkPermission (Except.ok u) (Except.error e) table column action =
      Except.error ("failed to get user permissions: " ++ e)
    ∧ ((requiredScope != "" && strContains u.scope requiredScope) = true →
        checkPermissionFlexible (Except.ok u) (Except.error e)
          table column action requiredScope = Except.ok ()
        ∧ getColumnPermissionsFlexible (Except.ok u) (Except.error e)
            table requiredScope cols =
          (some (newColumnPermissions table
              (cols.foldl (fun acc c => mapInsert acc c "allowed") []) true), none))
    ∧ ((requiredScope != "" && strContains u.scope requiredScope) = false →
        checkPermissionFlexible (Except.ok u) (Except.error e)
            table column action requiredScope =
          Except.error ("access denied: user " ++ u.email ++ " does not have " ++
            action ++ " permission for " ++ table ++ "." ++ column ++
            " (checked both ACL and scope " ++ requiredScope ++ ")")
        ∧ getColumnPermissionsFlexible (Except.ok u) (Except.error e)
            table requiredScope cols =
          (some (newColumnPermissions table
              (cols.foldl (fun acc c => mapInsert acc c "blocked") []) false),
           some ("access denied: user " ++ u.email ++
             " does not have read permission for " ++ table ++
             " (checked both ACL and scope " ++ requiredScope ++ ")"))) := by
  refine ⟨rfl, fun h => ?_, fun h => ?_⟩ <;>
    constructor <;>
      simp [checkPermissionFlexible, getColumnPermissionsFlexible, h]

theorem storeFailure_propagation_and_scope_fallback_witness :
    checkPermission (Except.ok { email := "w@x.com", scope := "read:loans" })
      (Except.error "boom") "T" "c" "read" =
      Except.error ("failed to get user permissions: " ++ "boom")
    ∧ checkPermissionFlexible (Except.ok { email := "w@x.com", scope := "read:loans" })
        (Except.error "boom") "T" "c" "read" "read:loans" = Except.ok () :=
  ⟨(storeFailure_propagation_and_scope_fallback
      { email := "w@x.com", scope := "read:loans" } "boom" "T" "c" "read"
      "read:loans" ["b"]).1,
   ((storeFailure_propagation_and_scope_fallback
      { email := "w@x.com", scope := "read:loans" } "boom" "T" "c" "read"
      "read:loans" ["b"]).2.1 (by decide)).1⟩

/-! ## What the cache stores (claim C6) -/

/-- A store whose user gains a permission from a group, so the merged map
differs from the user's own. -/
def cacheFormStore : Store :=
  [("u@x.com",
    { principalID := "u@x.com", groups := ["group:g"],
      permissions := [("A#*", "readwrite")], fieldFilters := [], updatedAt := 0 }),
   ("group:g",
    { principalID := "group:g", groups := [],
      permissions := [("B#*", "read")], fieldFilters := [], updatedAt := 0 })]

/-- C6, counterexample.  After a cache miss the entry stored under the user's
email carries the *merged* permissions — it contains the group-contributed
key `B#*` — not the user's own pre-merge permission map. -/
theorem cache_entry_not_premerge :
    (mapFind (getMergedACL 900 { store := cacheFormStore, cache := [] }
        "u@x.com" 0).2.1.cache "u@x.com").map (fun entry => entry.acl.permissions) =
      some [("B#*", "read"), ("A#*", "readwrite")]
    ∧ (mapFind cacheFormStore "u@x.com").map (fun r => r.permissions) =
        some [("A#*", "readwrite")]
    ∧ some [("B#*", "read"), ("A#*", "readwrite")] ≠ some [("A#*", "readwrite")] := by
  refine ⟨by decide, by decide, by decide⟩

/-- The miss path of `GetMergedACL` in one equation: fetch-merge, cache the
post-merge record under the email, report the fetch. -/
theorem getMergedACL_miss (ttl now : Int) (st : ServiceState) (email : String)
    (hmiss : mapFind st.cache email = none) :
    getMergedACL ttl st email now =
      (fetchAndMergeACL st.store email now,
       { st with
         cache := mapInsert st.cache email
           (newCacheEntry
             { principalID := email,
               groups := (fetchAndMergeACL st.store email now).groups,
               permissions := (fetchAndMergeACL st.store email now).permissions,
               fieldFilters := [], updatedAt := now } now ttl) }, true) := by
  unfold getMergedACL
  rw [hmiss]

/-- The hit path of `GetMergedACL` in one equation: a present, unexpired
entry is returned as-is with no fetch and no state change. -/
theorem getMergedACL_hit (ttl now : Int) (st : ServiceState) (email : String)
    (entry : CacheEntry) (hfind : mapFind st.cache email = some entry)
    (hfresh : now ≤ entry.expiresAt) :
    getMergedACL ttl st email now =
      ({ userEmail := email, permissions := entry.acl.permissions, fieldFilters := [],
         groups := entry.acl.groups,
         cachedAt := now - ttl + (entry.expiresAt - now) }, st, false) := by
  unfold getMergedACL
  rw [hfind]
  have h : ¬ (now > entry.expiresAt) := not_lt.mpr hfresh
  simp [CacheEntry.isExpired, h]

/-- C6, amended.  After a cache miss the entry stored under the email holds
the post-merge record (the merged permissions and groups, `UpdatedAt` at the
resolution time, expiring one TTL later), and a second resolution within the
TTL returns that stored merged view directly — same user email, permissions
and groups — with no repository fetch and no state change. -/
theorem cache_stores_merged_form (ttl now now' : Int) (st : ServiceState)
    (email : String) (hmiss : mapFind st.cache email = none)
    (hfresh : now' ≤ now + ttl) :
    let merged := fetchAndMergeACL st.store email now
    let entry :=
      newCacheEntry
        { principalID := email, groups := merged.groups,
          permissions := merged.permissions, fieldFilters := [], updatedAt := now }
        now ttl
    let st' : ServiceState := { st with cache := mapInsert st.cache email entry }
    getMergedACL ttl st email now = (merged, st', true)
    ∧ getMergedACL ttl st' email now' =
        ({ userEmail := email, permissions := merged.permissions, fieldFilters := [],
           groups := merged.groups,
           cachedAt := now' - ttl + (now + ttl - now') }, st', false) := by
  dsimp only
  constructor
  · exact getMergedACL_miss ttl now st email hmiss
  · exact getMergedACL_hit ttl now'
      { st with
        cache := mapInsert st.cache email
          (newCacheEntry
            { principalID := email,
              groups := (fetchAndMergeACL st.store email now).groups,
              permissions := (fetchAndMergeACL st.store email now).permissions,
              fieldFilters := [], updatedAt := now } now ttl) } email
      (newCacheEntry
        { principalID := email,
          groups := (fetchAndMergeACL st.store email now).groups,
          permissions := (fetchAndMergeACL st.store email now).permissions,
          fieldFilters := [], updatedAt := now } now ttl)
      (by rw [mapFind_mapInsert]; simp) hfresh

theorem cache_stores_merged_form_witness :
    (getMergedACL 900 { store := cacheFormStore, cache := [] } "u@x.com" 0).2.2 = true
    ∧ (getMergedACL 900
        (getMergedACL 900 { store := cacheFormStore, cache := [] } "u@x.com" 0).2.1
        "u@x.com" 500).2.2 = false := by
  have h := cache_stores_merged_form 900 0 500
    { store := cacheFormStore, cache := [] } "u@x.com" rfl (by decide)
  dsimp only at h
  refine ⟨by rw [h.1], ?_⟩
  rw [h.1]
  dsimp only
  rw [h.2]

/-! ## TTL semantics (claim C7) -/

/-- A present but expired entry is passed over: the resolution fetches. -/
theorem getMergedACL_expired_fetches (ttl now : Int) (st : ServiceState)
    (email : String) (entry : CacheEntry)
    (hfind : mapFind st.cache email = some entry)
    (hexp : now > entry.expiresAt) :
    (getMergedACL ttl st email now).2.2 = true := by
  unfold getMergedACL
  rw [hfind]
  simp [CacheEntry.isExpired, hexp]

/-- C7.  A resolution skips the repository exactly when a cache entry exists
with `now ≤ expiresAt`; from a cold cache, the resolution at `t0` fetches,
any resolution at `t0 + δ` with `0 ≤ δ ≤ ttl` does not fetch, and the
resolution at `t0 + ttl + ε` with `ε > 0` fetches again. -/
theorem cache_ttl_boundary (ttl t0 eps delta : Int) (st : ServiceState)
    (email : String) (hmiss : mapFind st.cache email = none) (heps : 0 < eps)
    (_hd0 : 0 ≤ delta) (hd : delta ≤ ttl) :
    (∀ (st' : ServiceState) (e : String) (now : Int),
      (getMergedACL ttl st' e now).2.2 = false ↔
        ∃ entry, mapFind st'.cache e = some entry ∧ now ≤ entry.expiresAt)
    ∧ (getMergedACL ttl st email t0).2.2 = true
    ∧ (getMergedACL ttl (getMergedACL ttl st email t0).2.1 email (t0 + delta)).2.2 = false
    ∧ (getMergedACL ttl (getMergedACL ttl st email t0).2.1 email
        (t0 + ttl + eps)).2.2 = true := by
  have hstep := getMergedACL_miss ttl t0 st email hmiss
  refine ⟨?_, by rw [hstep], ?_, ?_⟩
  · intro st' e now
    unfold getMergedACL
    cases h : mapFind st'.cache e with
    | none => simp
    | some entry =>
      by_cases hc : now > entry.expiresAt
      · have hnl : ¬ now ≤ entry.expiresAt := not_le.mpr hc
        simp [CacheEntry.isExpired, hc, hnl]
      · have hle : now ≤ entry.expiresAt := not_lt.mp hc
        simp [CacheEntry.isExpired, hc, hle]
  · rw [hstep]
    dsimp only
    rw [getMergedACL_hit ttl (t0 + delta) _ email
      (newCacheEntry
        { principalID := email,
          groups := (fetchAndMergeACL st.store email t0).groups,
          permissions := (fetchAndMergeACL st.store email t0).permissions,
          fieldFilters := [], updatedAt := t0 } t0 ttl)
      (by rw [mapFind_mapInsert]; simp)
      (by simp only [newCacheEntry]; omega)]
  · rw [hstep]
    dsimp only
    exact getMergedACL_expired_fetches ttl (t0 + ttl + eps) _ email
      (newCacheEntry
        { principalID := email,
          groups := (fetchAndMergeACL st.store email t0).groups,
          permissions := (fetchAndMergeACL st.store email t0).permissions,
          fieldFilters := [], updatedAt := t0 } t0 ttl)
      (by rw [mapFind_mapInsert]; simp)
      (by simp only [newCacheEntry]; omega)

theorem cache_ttl_boundary_witness :
    (getMergedACL 900 { store := [], cache := [] } "u@x.com" 0).2.2 = true
    ∧ (getMergedACL 900
        (getMergedACL 900 { store := [], cache := [] } "u@x.com" 0).2.1
        "u@x.com" 900).2.2 = false
    ∧ (getMergedACL 900
        (getMergedACL 900 { store := [], cache := [] } "u@x.com" 0).2.1
        "u@x.com" 901).2.2 = true := by
  have h := cache_ttl_boundary 900 0 1 900 { store := [], cache := [] } "u@x.com"
    rfl (by decide) (by decide) (by decide)
  exact ⟨h.2.1, h.2.2.1, by simpa using h.2.2.2⟩

/-! ## Invalidation scope (claim C8) -/

/-- C8.  The four single-user mutations drop exactly the target email's cache
entry — any other principal's entry is untouched and its next within-TTL
resolution does not fetch — while the three group mutations clear the whole
cache, so any principal's next resolution fetches. -/
theorem invalidation_scope (st : ServiceState) (email e' gname anyEmail : String)
    (groups : List String) (perms : List (String × String)) (now ttl now' : Int)
    (entry : CacheEntry) (hne : e' ≠ email)
    (hfind : mapFind st.cache e' = some entry)
    (hfresh : now' ≤ entry.expiresAt) :
    mapFind (createUser st email groups perms now).cache e' = mapFind st.cache e'
    ∧ mapFind (updateUserGroups st email groups now).cache e' = mapFind st.cache e'
    ∧ mapFind (updateUserPermissions st email perms now).cache e' = mapFind st.cache e'
    ∧ mapFind (deleteUser st email).cache e' = mapFind st.cache e'
    ∧ mapFind (createUser st email groups perms now).cache email = none
    ∧ mapFind (updateUserGroups st email groups now).cache email = none
    ∧ mapFind (updateUserPermissions st email perms now).cache email = none
    ∧ mapFind (deleteUser st email).cache email = none
    ∧ (getMergedACL ttl (createUser st email groups perms now) e' now').2.2 = false
    ∧ (createGroup st gname perms now).cache = []
    ∧ (updateGroupPermissions st gname perms now).cache = []
    ∧ (deleteGroup st gname).cache = []
    ∧ (getMergedACL ttl (createGroup st gname perms now) anyEmail now').2.2 = true := by
  have hne' : email ≠ e' := fun h => hne h.symm
  have herase : ∀ c : List (String × CacheEntry),
      mapFind (mapErase c email) e' = mapFind c e' := by
    intro c
    rw [mapFind_mapErase]
    simp [hne']
  have heraseSelf : ∀ c : List (String × CacheEntry),
      mapFind (mapErase c email) email = none := by
    intro c
    rw [mapFind_mapErase]
    simp
  refine ⟨herase _, herase _, herase _, herase _,
    heraseSelf _, heraseSelf _, heraseSelf _, heraseSelf _, ?_, rfl, rfl, rfl, ?_⟩
  · rw [getMergedACL_hit ttl now' _ e' entry (by
      show mapFind (mapErase st.cache email) e' = some entry
      rw [herase st.cache, hfind]) hfresh]
  · rw [getMergedACL_miss ttl now' (createGroup st gname perms now) anyEmail rfl]

/-- The bystander principal's record cached in the C8 witness state. -/
def otherEntry : CacheEntry :=
  { acl :=
      { principalID := "v@x.com", groups := [], permissions := [],
        fieldFilters := [], updatedAt := 0 },
    expiresAt := 900 }

/-- The C8 witness state: only `v@x.com` is cached. -/
def invalidationState : ServiceState :=
  { store := [], cache := [("v@x.com", otherEntry)] }

theorem invalidation_scope_witness :
    mapFind (deleteUser invalidationState "u@x.com").cache "v@x.com" = some otherEntry
    ∧ (getMergedACL 900 (createGroup invalidationState "g" [] 0) "v@x.com" 10).2.2 =
        true := by
  have h := invalidation_scope invalidationState "u@x.com" "v@x.com" "g" "v@x.com"
    [] [] 0 900 10 otherEntry (by decide) (by decide) (by decide)
  exact ⟨by rw [h.2.2.2.1]; decide, h.2.2.2.2.2.2.2.2.2.2.2.2⟩

end Ssot
